import Mathlib

/-!
Verification of the `Config` builder and the `Manager` handle registry of the
rust-kv repository (src/config.rs, src/manager.rs), shallowly embedded in Lean.

Machine integers (`u32`, `usize`) are modelled as `Nat`; none of the embedded
operations can overflow their Rust width for the inputs we consider, and the
bitset operations (`|`, `&`) agree on `Nat` and on fixed-width words for values
below `2^32`, which the validity masks enforce. `PathBuf` and bucket names are
modelled as `String`. Fallible operations return `Option`/`Except`; a `bitflags`
`unwrap` panic is modelled as `none`.
-/

set_option autoImplicit false

namespace KV

/-- Modelled from the spec: the error taxonomy of §7 (error.rs is not part of
the provided sources). `io` and `engineOpen` carry an abstract code so that
distinct failures stay distinct. -/
inductive Err where
  | invalidConfiguration
  | io (code : Nat)
  | engineOpen (code : Nat)
deriving DecidableEq, Repr

/-! ### lmdb flag bitsets

The `lmdb` crate's `EnvironmentFlags` and `DatabaseFlags` are `bitflags` types
over `u32`. A typed flags value is a `Nat` whose bits all lie inside the
corresponding mask; `from_bits` returns `some` exactly on such values, and
`bits()` is the identity. The masks below are the unions of the constants
defined by the lmdb crate. -/

/-- Union of all defined `lmdb::EnvironmentFlags` bits (FIXED_MAP 0x01,
NO_SUB_DIR 0x4000, NO_SYNC 0x10000, READ_ONLY 0x20000, NO_META_SYNC 0x40000,
WRITE_MAP 0x80000, MAP_ASYNC 0x100000, NO_TLS 0x200000, NO_LOCK 0x400000,
NO_READAHEAD 0x800000, NO_MEMORY_INIT 0x1000000). -/
def ENV_MASK : Nat := 0x1ff4001

/-- The `lmdb::EnvironmentFlags::READ_ONLY` bit (MDB_RDONLY). -/
def READ_ONLY : Nat := 0x20000

/-- Union of all defined `lmdb::DatabaseFlags` bits (REVERSE_KEY 0x02,
DUP_SORT 0x04, INTEGER_KEY 0x08, DUP_FIXED 0x10, INTEGER_DUP 0x20,
REVERSE_DUP 0x40, CREATE 0x40000). -/
def DB_MASK : Nat := 0x4007e

/-- The `bitflags` `from_bits` operation for a given mask: defined exactly when every set bit
is a defined flag bit. -/
def fromBits (mask b : Nat) : Option Nat :=
  if b &&& mask = b then some b else none

/-! ### Association lists

`HashMap<String, u32>` (Config.database_flags) and `BTreeMap<PathBuf, _>`
(Manager.stores) are modelled as association lists with unique keys; `insertA`
is insert-or-replace, matching both maps' `insert`. -/

/-- Map lookup. -/
def lookupA {α : Type} : List (String × α) → String → Option α
  | [], _ => none
  | (k, v) :: rest, key => if k = key then some v else lookupA rest key

/-- Map insert-or-replace. -/
def insertA {α : Type} : List (String × α) → String → α → List (String × α)
  | [], key, val => [(key, val)]
  | (k, v) :: rest, key, val =>
      if k = key then (key, val) :: rest else (k, v) :: insertA rest key val

/-! ### Config (src/config.rs) -/

/-- The `Config` struct of src/config.rs. `flags` and per-bucket values of
`database_flags` are the raw `u32` bitsets the struct stores privately. -/
structure Config where
  map_size : Nat
  max_readers : Nat
  flags : Nat
  path : String
  buckets : List String
  readonly : Bool
  database_flags : List (String × Nat)
deriving DecidableEq, Repr

namespace Config

/-- Embeds `Config::default`: fixed defaults seeded with a path
(`EnvironmentFlags::empty().bits() = 0`). -/
def default (p : String) : Config :=
  { map_size := 1024 * 1024 * 1024
    max_readers := 5
    flags := 0
    path := p
    buckets := []
    readonly := false
    database_flags := [] }

/-- Embeds `Config::set_map_size`. -/
def set_map_size (c : Config) (n : Nat) : Config := { c with map_size := n }

/-- Embeds `Config::set_max_readers`. -/
def set_max_readers (c : Config) (n : Nat) : Config := { c with max_readers := n }

/-- Embeds `Config::flags()`: decodes the stored bitset; the Rust code `unwrap`s the
`from_bits` result, so `none` models the panic. -/
def flagsGet (c : Config) : Option Nat :=
  fromBits ENV_MASK c.flags

/-- Embeds `Config::flag`: reads the decoded flags, inserts `f` into the local copy,
then stores `f.bits()` — the merged local `_merged` is dead, exactly as in the
source, where `flags.insert(f)` is computed but `self.flags = f.bits()` is
assigned. -/
def flag (c : Config) (f : Nat) : Option Config :=
  match c.flagsGet with
  | none => none
  | some flags =>
      let _merged := flags ||| f
      some { c with flags := f }

/-- Embeds `Config::set_path`. -/
def set_path (c : Config) (p : String) : Config := { c with path := p }

/-- Embeds `Config::bucket`: appends a bucket name. -/
def bucket (c : Config) (name : String) : Config :=
  { c with buckets := c.buckets ++ [name] }

/-- Embeds `Config::readonly` (the setter; named apart from the field). -/
def set_readonly (c : Config) (b : Bool) : Config := { c with readonly := b }

/-- Embeds `Config::database_flags(name)`: decodes the stored per-bucket bitset
(defaulting to empty), `unwrap` modelled as `Option`. -/
def databaseFlagsGet (c : Config) (name : String) : Option Nat :=
  fromBits DB_MASK ((lookupA c.database_flags name).getD 0)

/-- Embeds `Config::database_flag`: merges `f` into the named bucket's flags and
stores the merged bits. -/
def database_flag (c : Config) (name : String) (f : Nat) : Option Config :=
  match c.databaseFlagsGet name with
  | none => none
  | some flags =>
      let merged := flags ||| f
      some { c with database_flags := insertA c.database_flags name merged }

/-- The parameter record `Config::env` hands to
`lmdb::Environment::new()...open(path)`. -/
structure EnvParams where
  flags : Nat
  max_readers : Nat
  max_dbs : Nat
  map_size : Nat
  path : String
deriving DecidableEq, Repr

/-- Embeds `Config::env`: decodes the stored flags (panic modelled as `none`), forces
`READ_ONLY` when `readonly` is set, and hands
`{flags, max_readers, max_dbs = buckets.len() + 1, map_size, path}` to the
engine. The `fs::create_dir_all` call is best-effort with its result discarded
and touches no field of `self`; `env` takes `&mut self`, so the embedding
returns the (unchanged) config alongside the result. Whether the engine's
`open` itself succeeds is the engine's affair and independent of `self`. -/
def envMut (c : Config) : Option EnvParams × Config :=
  match c.flagsGet with
  | none => (none, c)
  | some fl =>
      let fl := if c.readonly then fl ||| READ_ONLY else fl
      (some { flags := fl
              max_readers := c.max_readers
              max_dbs := c.buckets.length + 1
              map_size := c.map_size
              path := c.path }, c)

end Config

/-! ### Serialization (src/config.rs `save_to` / `load_from`)

`save_to` runs `toml::to_string` on the derived `Serialize` impl and
`load_from` runs `toml::from_slice` on the derived `Deserialize` impl. The
`toml` crate is an external dependency, so serialization is embedded at the
serde data-model level: a document of key/value pairs, one key per struct
field (this is exactly what `#[derive(Serialize, Deserialize)]` produces for
`Config`; the text layer mapping such a document to and from TOML characters
belongs to the external crate). -/

/-- A value in the serialized document: integers for `usize`/`u32` fields,
a string for `path`, a string array for `buckets`, a bool for `readonly`, and
a string-to-integer table for `database_flags`. -/
inductive TomlValue where
  | int (n : Nat)
  | str (s : String)
  | bool (b : Bool)
  | arr (xs : List String)
  | table (kvs : List (String × Nat))
deriving DecidableEq, Repr

/-- The serialized form of a `Config`: one key per field, private fields
(`flags`, `database_flags`) included, as serde derives it. -/
def TomlDoc : Type := List (String × TomlValue)

/-- Embeds `Config::save_to`: serialize every field under its field name. -/
def Config.save_to (c : Config) : TomlDoc :=
  [ ("map_size", TomlValue.int c.map_size)
  , ("max_readers", TomlValue.int c.max_readers)
  , ("flags", TomlValue.int c.flags)
  , ("path", TomlValue.str c.path)
  , ("buckets", TomlValue.arr c.buckets)
  , ("readonly", TomlValue.bool c.readonly)
  , ("database_flags", TomlValue.table c.database_flags) ]

/-- Extract an integer value. -/
def TomlValue.asInt : TomlValue → Option Nat
  | .int n => some n
  | _ => none

/-- Extract a string value. -/
def TomlValue.asStr : TomlValue → Option String
  | .str s => some s
  | _ => none

/-- Extract a bool value. -/
def TomlValue.asBool : TomlValue → Option Bool
  | .bool b => some b
  | _ => none

/-- Extract a string array value. -/
def TomlValue.asArr : TomlValue → Option (List String)
  | .arr xs => some xs
  | _ => none

/-- Extract a table value. -/
def TomlValue.asTable : TomlValue → Option (List (String × Nat))
  | .table kvs => some kvs
  | _ => none

/-- Embeds `Config::load_from`: deserialize a document, requiring every field with
its expected type; any malformed document is `Error::InvalidConfiguration`. -/
def Config.load_from (d : TomlDoc) : Except Err Config :=
  match (do
    let ms ← lookupA d "map_size" >>= TomlValue.asInt
    let mr ← lookupA d "max_readers" >>= TomlValue.asInt
    let fl ← lookupA d "flags" >>= TomlValue.asInt
    let p ← lookupA d "path" >>= TomlValue.asStr
    let bs ← lookupA d "buckets" >>= TomlValue.asArr
    let ro ← lookupA d "readonly" >>= TomlValue.asBool
    let df ← lookupA d "database_flags" >>= TomlValue.asTable
    some { map_size := ms, max_readers := mr, flags := fl, path := p
           buckets := bs, readonly := ro, database_flags := df } : Option Config) with
  | some c => .ok c
  | none => .error Err.invalidConfiguration

/-! ### Manager (src/manager.rs)

`Store::new` (store.rs is an external collaborator per the spec) and
`fs::canonicalize` are oracles passed as parameters: `canon` models path
canonicalization (a pure function of the path for the duration considered) and
`storeNew` models the engine-open performed by `Store::new(cfg)`. An
`Arc<RwLock<Store>>` handle is modelled by the `Nat` identity of its
allocation, so two handles are `Arc::ptr_eq` exactly when the model values are
equal; `nextId` supplies fresh identities. -/

/-- The canonicalization oracle: `Path::canonicalize`, which resolves symlinks
and relative components and fails with an I/O error on missing paths. -/
def Canon : Type := String → Except Err String

/-- The engine-open oracle: whether `Store::new(cfg)` succeeds. -/
def StoreNew : Type := Config → Except Err Unit

/-- The `Manager` struct: the mutex-protected `BTreeMap<PathBuf, Arc<RwLock<Store>>>`
keyed by canonical path, plus the allocation counter supplying handle
identities. -/
structure Manager where
  stores : List (String × Nat)
  nextId : Nat
deriving DecidableEq, Repr

namespace Manager

/-- Embeds `Manager::new`: empty registry. -/
def new : Manager := { stores := [], nextId := 0 }

/-- Embeds `Manager::get`: canonicalize (propagating failure), then look up and clone
under the lock. `get` takes `&self` but the `Mutex` grants interior
mutability, so the embedding returns the registry state to make the frame
property statable; the body only reads. -/
def get (canon : Canon) (m : Manager) (p : String) :
    Except Err (Option Nat) × Manager :=
  match canon p with
  | .error e => (.error e, m)
  | .ok c => (.ok (lookupA m.stores c), m)

/-- Embeds `Manager::open` (named `openStore`, `open` being reserved): best-effort `create_dir_all` (result discarded, registry
untouched), canonicalize (propagating failure), then under the lock:
an occupied entry is cloned and returned; a vacant entry first runs
`Store::new(cfg)?` — on failure the error propagates with nothing inserted —
and on success inserts a fresh handle and returns it. -/
def openStore (canon : Canon) (storeNew : StoreNew) (m : Manager) (cfg : Config) :
    Except Err Nat × Manager :=
  match canon cfg.path with
  | .error e => (.error e, m)
  | .ok c =>
    match lookupA m.stores c with
    | some h => (.ok h, m)
    | none =>
      match storeNew cfg with
      | .error e => (.error e, m)
      | .ok _ =>
          (.ok m.nextId,
           { stores := insertA m.stores c m.nextId, nextId := m.nextId + 1 })

/-- Run a sequence of `open` calls, keeping only the registry state. -/
def runOpens (canon : Canon) (storeNew : StoreNew) :
    Manager → List Config → Manager
  | m, [] => m
  | m, cfg :: rest => runOpens canon storeNew (openStore canon storeNew m cfg).2 rest

end Manager

/-! ### Builder-reachable configurations

The configurations obtainable from `Config::default` by applying the public
setters. The typed arguments `lmdb::EnvironmentFlags` / `lmdb::DatabaseFlags`
of `flag` / `database_flag` always satisfy their mask by construction in Rust,
which the corresponding side conditions record; these two setters' steps also
carry the fact that the call returned (did not panic). -/
inductive Reachable : Config → Prop where
  | default (p : String) : Reachable (Config.default p)
  | set_map_size {c : Config} (n : Nat) :
      Reachable c → Reachable (c.set_map_size n)
  | set_max_readers {c : Config} (n : Nat) :
      Reachable c → Reachable (c.set_max_readers n)
  | set_path {c : Config} (p : String) :
      Reachable c → Reachable (c.set_path p)
  | bucket {c : Config} (name : String) :
      Reachable c → Reachable (c.bucket name)
  | set_readonly {c : Config} (b : Bool) :
      Reachable c → Reachable (c.set_readonly b)
  | flag {c c' : Config} (f : Nat) :
      Reachable c → f &&& ENV_MASK = f → c.flag f = some c' → Reachable c'
  | database_flag {c c' : Config} (name : String) (f : Nat) :
      Reachable c → f &&& DB_MASK = f → c.database_flag name f = some c' →
      Reachable c'

/-- Both stored bitsets of a config decode: all bits of `flags` lie in
`ENV_MASK` and, for every name, all bits of the stored (or defaulted)
database flags lie in `DB_MASK`. -/
def ValidBits (c : Config) : Prop :=
  c.flags &&& ENV_MASK = c.flags ∧
  ∀ name : String,
    (lookupA c.database_flags name).getD 0 &&& DB_MASK =
      (lookupA c.database_flags name).getD 0

/-!
## Theorems

Helper lemmas first, then one theorem per claim (each introduced by a doc
comment naming the claim), with a closed witness instance for every theorem
that carries a hypothesis.
-/

@[simp] theorem lookupA_nil {α : Type} (key : String) :
    lookupA ([] : List (String × α)) key = none := rfl

@[simp] theorem lookupA_cons {α : Type} (k key : String) (v : α)
    (rest : List (String × α)) :
    lookupA ((k, v) :: rest) key = if k = key then some v else lookupA rest key := rfl

theorem lookupA_insertA_self {α : Type} (l : List (String × α)) (key : String) (val : α) :
    lookupA (insertA l key val) key = some val := by
  induction l with
  | nil => simp [insertA]
  | cons hd tl ih =>
    obtain ⟨k, v⟩ := hd
    by_cases h : k = key <;> simp [insertA, h, ih]

theorem lookupA_insertA_ne {α : Type} (l : List (String × α)) (key key' : String)
    (val : α) (h : key ≠ key') :
    lookupA (insertA l key val) key' = lookupA l key' := by
  induction l with
  | nil => simp [insertA, h]
  | cons hd tl ih =>
    obtain ⟨k, v⟩ := hd
    by_cases hk : k = key
    · subst hk; simp [insertA, h]
    · simp only [insertA, if_neg hk, lookupA_cons, ih]

/-- Bit-subset of a mask is preserved by union. -/
theorem lor_land_mask {a b m : Nat} (ha : a &&& m = a) (hb : b &&& m = b) :
    (a ||| b) &&& m = a ||| b := by
  apply Nat.eq_of_testBit_eq
  intro i
  have ha' := congrArg (fun x => Nat.testBit x i) ha
  have hb' := congrArg (fun x => Nat.testBit x i) hb
  simp only [Nat.testBit_and, Nat.testBit_or] at *
  cases h1 : a.testBit i <;> cases h2 : b.testBit i <;>
    simp_all

/-- A successful `open` leaves the returned handle in the registry under the
canonical form of the config's path. -/
theorem openStore_ok_lookup {canon : Canon} {sn : StoreNew} {m m' : Manager}
    {cfg : Config} {hdl : Nat}
    (hok : Manager.openStore canon sn m cfg = (.ok hdl, m')) :
    ∃ cp, canon cfg.path = .ok cp ∧ lookupA m'.stores cp = some hdl := by
  unfold Manager.openStore at hok
  cases hc : canon cfg.path with
  | error e =>
    simp only [hc, Prod.mk.injEq] at hok
    exact Except.noConfusion hok.1
  | ok cp =>
    simp only [hc] at hok
    refine ⟨cp, rfl, ?_⟩
    cases hl : lookupA m.stores cp with
    | some h0 =>
      simp only [hl, Prod.mk.injEq] at hok
      obtain ⟨h1, h2⟩ := hok
      rw [← h2, hl]
      exact congrArg some (Except.ok.inj h1)
    | none =>
      simp only [hl] at hok
      cases hs : sn cfg with
      | error e =>
        simp only [hs, Prod.mk.injEq] at hok
        exact Except.noConfusion hok.1
      | ok u =>
        simp only [hs, Prod.mk.injEq] at hok
        obtain ⟨h1, h2⟩ := hok
        rw [← h2, ← Except.ok.inj h1]
        exact lookupA_insertA_self m.stores cp m.nextId

/-- Opening a path whose canonical form is absent from the registry does not
create an entry for an unrelated canonical path. -/
theorem openStore_preserves_none {canon : Canon} {sn : StoreNew} {m : Manager}
    {cfg : Config} {cp : String}
    (hne : canon cfg.path ≠ .ok cp)
    (h0 : lookupA m.stores cp = none) :
    lookupA (Manager.openStore canon sn m cfg).2.stores cp = none := by
  unfold Manager.openStore
  cases hc : canon cfg.path with
  | error e => simp only [hc]; exact h0
  | ok c =>
    simp only [hc]
    cases hl : lookupA m.stores c with
    | some h => simp only [hl]; exact h0
    | none =>
      simp only [hl]
      cases hs : sn cfg with
      | error e => simp only [hs]; exact h0
      | ok u =>
        simp only [hs]
        have hcne : c ≠ cp := fun h => hne (by rw [hc, h])
        rw [lookupA_insertA_ne m.stores c cp m.nextId hcne]
        exact h0

/-- Registry entries for a canonical path absent from every opened config stay
absent across a whole sequence of `open` calls. -/
theorem runOpens_lookup_none (canon : Canon) (sn : StoreNew) (m : Manager)
    (cfgs : List Config) (cp : String)
    (h0 : lookupA m.stores cp = none)
    (hfresh : ∀ cfg ∈ cfgs, canon cfg.path ≠ .ok cp) :
    lookupA (Manager.runOpens canon sn m cfgs).stores cp = none := by
  induction cfgs generalizing m with
  | nil => exact h0
  | cons cfg rest ih =>
    simp only [Manager.runOpens]
    exact ih _
      (openStore_preserves_none (hfresh cfg (List.mem_cons_self cfg rest)) h0)
      (fun c hc => hfresh c (List.mem_cons_of_mem cfg hc))

/-- C2: if the path canonicalizes but the engine-open (`Store::new`) fails,
`Manager::open` propagates exactly that error and the registry is unchanged —
no entry is inserted for the canonical path. -/
theorem open_engine_fail_leaves_registry (canon : Canon) (sn : StoreNew)
    (m : Manager) (cfg : Config) (cp : String) (e : Err)
    (hc : canon cfg.path = .ok cp)
    (hl : lookupA m.stores cp = none)
    (hs : sn cfg = .error e) :
    Manager.openStore canon sn m cfg = (.error e, m) := by
  unfold Manager.openStore
  simp only [hc, hl, hs]

/-- Witness for C2: a concrete failing engine-open on a fresh registry
propagates the error and returns the registry untouched. -/
theorem open_engine_fail_leaves_registry_witness :
    Manager.openStore (fun p => .ok p) (fun _ => .error (Err.engineOpen 7))
      Manager.new (Config.default "db") = (.error (Err.engineOpen 7), Manager.new) :=
  open_engine_fail_leaves_registry (fun p => .ok p) (fun _ => .error (Err.engineOpen 7))
    Manager.new (Config.default "db") "db" (Err.engineOpen 7) rfl rfl rfl

/-- C3: after a successful `open`, a second `open` whose path has the same
canonical form returns the very same handle and leaves the registry unchanged
(one entry, one store), for **every** engine-open oracle — in particular one
that always fails — so the engine is consulted only by the first call. -/
theorem second_open_same_canonical_path (canon : Canon) (sn1 sn2 : StoreNew)
    (m m1 : Manager) (cfg1 cfg2 : Config) (hdl : Nat)
    (hopen : Manager.openStore canon sn1 m cfg1 = (.ok hdl, m1))
    (hsame : canon cfg2.path = canon cfg1.path) :
    Manager.openStore canon sn2 m1 cfg2 = (.ok hdl, m1) := by
  obtain ⟨cp, hc, hl⟩ := openStore_ok_lookup hopen
  unfold Manager.openStore
  simp only [hsame, hc, hl]

/-- Witness for C3: two textually different paths with one canonical form;
the second `open` runs against an engine oracle that always fails and still
returns the first call's handle with the one-entry registry intact. -/
theorem second_open_same_canonical_path_witness :
    Manager.openStore (fun _ => .ok "c") (fun _ => .error (Err.engineOpen 1))
      { stores := [("c", 0)], nextId := 1 } (Config.default "b")
      = (.ok 0, { stores := [("c", 0)], nextId := 1 }) :=
  second_open_same_canonical_path (fun _ => .ok "c") (fun _ => .ok ())
    (fun _ => .error (Err.engineOpen 1)) Manager.new
    { stores := [("c", 0)], nextId := 1 } (Config.default "a") (Config.default "b")
    0 rfl rfl

/-- C4: after a successful `open(cfg)`, `get(cfg.path)` on the resulting
registry returns `some` of the identical handle (same shared instance, modelled
by handle identity) and leaves the registry as is. -/
theorem get_after_open (canon : Canon) (sn : StoreNew) (m m1 : Manager)
    (cfg : Config) (hdl : Nat)
    (hopen : Manager.openStore canon sn m cfg = (.ok hdl, m1)) :
    Manager.get canon m1 cfg.path = (.ok (some hdl), m1) := by
  obtain ⟨cp, hc, hl⟩ := openStore_ok_lookup hopen
  unfold Manager.get
  simp only [hc, hl]

/-- Witness for C4: open a fresh path, then `get` it and receive the same
handle identity back. -/
theorem get_after_open_witness :
    Manager.get (fun p => .ok p)
      { stores := [("db", 0)], nextId := 1 } (Config.default "db").path
      = (.ok (some 0), { stores := [("db", 0)], nextId := 1 }) :=
  get_after_open (fun p => .ok p) (fun _ => .ok ()) Manager.new
    { stores := [("db", 0)], nextId := 1 } (Config.default "db") 0 rfl

/-- C6 counterexample: with canonicalization that aliases (the symlink /
relative-path collapsing the spec itself mandates), a path `"b"` that was
never passed to `open` — only `"a"` was — still makes `get "b"` return an
existing handle rather than `none`, because both canonicalize alike. -/
theorem get_unopened_aliased_path_cex :
    (Config.default "a").path ≠ "b" ∧
    Manager.get (fun _ => .ok "c")
      (Manager.runOpens (fun _ => .ok "c") (fun _ => .ok ()) Manager.new
        [Config.default "a"]) "b"
      = (.ok (some 0),
         Manager.runOpens (fun _ => .ok "c") (fun _ => .ok ()) Manager.new
           [Config.default "a"]) :=
  ⟨by decide, rfl⟩

/-- C6 (amended): when `p` canonicalizes successfully and no opened config's
path shares `p`'s canonical form (in particular `p` itself was never opened),
`get p` returns `none`; and `get` never modifies the registry. -/
theorem get_fresh_canonical_none (canon : Canon) (sn : StoreNew)
    (cfgs : List Config) (p cp : String)
    (hp : canon p = .ok cp)
    (hfresh : ∀ cfg ∈ cfgs, canon cfg.path ≠ .ok cp) :
    Manager.get canon (Manager.runOpens canon sn Manager.new cfgs) p
      = (.ok none, Manager.runOpens canon sn Manager.new cfgs) := by
  have hnone := runOpens_lookup_none canon sn Manager.new cfgs cp rfl hfresh
  unfold Manager.get
  simp only [hp, hnone]

/-- Witness for the amended C6: open `"a"`, then `get "b"` under
non-aliasing canonicalization returns `none` with the registry unchanged. -/
theorem get_fresh_canonical_none_witness :
    Manager.get (fun s => .ok s)
      (Manager.runOpens (fun s => .ok s) (fun _ => .ok ()) Manager.new
        [Config.default "a"]) "b"
      = (.ok none,
         Manager.runOpens (fun s => .ok s) (fun _ => .ok ()) Manager.new
           [Config.default "a"]) :=
  get_fresh_canonical_none (fun s => .ok s) (fun _ => .ok ())
    [Config.default "a"] "b" "b" rfl
    (by
      intro cfg hc
      rw [List.mem_singleton] at hc
      subst hc
      intro h
      exact absurd (Except.ok.inj h) (by decide))

/-- C1 (code evaluation): starting from the default config, setting flag
`0x1` (FIXED_MAP) and then flag `0x4000` (NO_SUB_DIR) leaves the stored bitset
at `0x4000` — the second call overwrote the first — whereas the union of the
flags stored before the second call and its argument is `0x4001 ≠ 0x4000`.
`Config::flag` computes `flags.insert(f)` into a local and then assigns
`self.flags = f.bits()`, discarding the merge (compare `database_flag`, which
stores the merged bits). -/
theorem flag_discards_previous_flags :
    (((Config.default "db").flag 0x1).bind (fun c => c.flag 0x4000)).map
        Config.flags = some 0x4000 ∧
    (0x4000 : Nat) ≠ 0x1 ||| (0x4000 : Nat) := by
  exact ⟨rfl, by decide⟩

/-- C5: serializing a `Config` and deserializing the result reproduces it in
every field, the private `flags` and `database_flags` bitsets included. -/
theorem save_load_roundtrip (c : Config) :
    Config.load_from (Config.save_to c) = .ok c := rfl

/-- C7: `set_map_size`, `set_max_readers`, `flag` and `readonly` each change
only their own target field of the `Config` and leave every other field
unchanged (mutation in place with a chaining reference to `self` is modelled
by returning the updated value). For `flag` this is stated for a call that
returns, i.e. whose stored-bitset decode does not panic. -/
theorem setters_modify_only_target (c c' : Config) (n r : Nat) (f : Nat)
    (b : Bool) (hf : c.flag f = some c') :
    ((c.set_map_size n).map_size = n ∧
      (c.set_map_size n).max_readers = c.max_readers ∧
      (c.set_map_size n).flags = c.flags ∧
      (c.set_map_size n).path = c.path ∧
      (c.set_map_size n).buckets = c.buckets ∧
      (c.set_map_size n).readonly = c.readonly ∧
      (c.set_map_size n).database_flags = c.database_flags) ∧
    ((c.set_max_readers r).max_readers = r ∧
      (c.set_max_readers r).map_size = c.map_size ∧
      (c.set_max_readers r).flags = c.flags ∧
      (c.set_max_readers r).path = c.path ∧
      (c.set_max_readers r).buckets = c.buckets ∧
      (c.set_max_readers r).readonly = c.readonly ∧
      (c.set_max_readers r).database_flags = c.database_flags) ∧
    ((c.set_readonly b).readonly = b ∧
      (c.set_readonly b).map_size = c.map_size ∧
      (c.set_readonly b).max_readers = c.max_readers ∧
      (c.set_readonly b).flags = c.flags ∧
      (c.set_readonly b).path = c.path ∧
      (c.set_readonly b).buckets = c.buckets ∧
      (c.set_readonly b).database_flags = c.database_flags) ∧
    (c'.map_size = c.map_size ∧
      c'.max_readers = c.max_readers ∧
      c'.path = c.path ∧
      c'.buckets = c.buckets ∧
      c'.readonly = c.readonly ∧
      c'.database_flags = c.database_flags) := by
  have hc' : c' = { c with flags := f } := by
    unfold Config.flag at hf
    cases h : c.flagsGet with
    | none => rw [h] at hf; exact Option.noConfusion hf
    | some fl => rw [h] at hf; exact (Option.some.inj hf).symm
  subst hc'
  exact ⟨⟨rfl, rfl, rfl, rfl, rfl, rfl, rfl⟩, ⟨rfl, rfl, rfl, rfl, rfl, rfl, rfl⟩,
    ⟨rfl, rfl, rfl, rfl, rfl, rfl, rfl⟩, rfl, rfl, rfl, rfl, rfl, rfl⟩

/-- Witness for C7: a concrete instance on the default config. -/
theorem setters_modify_only_target_witness :
    ((Config.default "p").set_map_size 2).map_size = 2 :=
  (setters_modify_only_target (Config.default "p")
    { Config.default "p" with flags := 1 } 2 3 1 true (by decide)).1.1

/-- C8: when the stored flags decode, `env` hands the engine exactly
`{flags = stored flags with READ_ONLY forced in when `readonly` is set,
max_readers, max_dbs = buckets.len() + 1, map_size, path}`. -/
theorem env_opens_with_exact_params (c : Config) (fl : Nat)
    (h : c.flagsGet = some fl) :
    (Config.envMut c).1 =
      some { flags := if c.readonly then fl ||| READ_ONLY else fl
             max_readers := c.max_readers
             max_dbs := c.buckets.length + 1
             map_size := c.map_size
             path := c.path } := by
  unfold Config.envMut
  simp only [h]

/-- Witness for C8: a default config with two buckets passes
`max_dbs = 3` (and its other parameters verbatim). -/
theorem env_opens_with_exact_params_witness :
    (Config.envMut ((Config.default "p").bucket "a" |>.bucket "b")).1 =
      some { flags := 0, max_readers := 5, max_dbs := 3,
             map_size := 1024 * 1024 * 1024, path := "p" } :=
  env_opens_with_exact_params ((Config.default "p").bucket "a" |>.bucket "b")
    0 rfl

/-- A successful `from_bits` certifies its result lies inside the mask. -/
theorem fromBits_some {mask b fl : Nat} (h : fromBits mask b = some fl) :
    fl &&& mask = fl := by
  unfold fromBits at h
  by_cases hc : b &&& mask = b
  · rw [if_pos hc] at h
    obtain rfl := Option.some.inj h
    exact hc
  · rw [if_neg hc] at h
    exact Option.noConfusion h

/-- C9 helper: every builder-reachable config has both stored bitsets inside
their masks. -/
theorem reachable_validBits {c : Config} (h : Reachable c) : ValidBits c := by
  induction h with
  | default p =>
    constructor
    · exact Nat.zero_and ENV_MASK
    · intro name; exact Nat.zero_and DB_MASK
  | set_map_size n _ ih => exact ih
  | set_max_readers n _ ih => exact ih
  | set_path p _ ih => exact ih
  | bucket name _ ih => exact ih
  | set_readonly b _ ih => exact ih
  | flag f _ hmask hstep ih =>
    unfold Config.flag at hstep
    cases hg : Config.flagsGet _ with
    | none => rw [hg] at hstep; exact Option.noConfusion hstep
    | some fl =>
      rw [hg] at hstep
      obtain rfl := (Option.some.inj hstep).symm
      exact ⟨hmask, ih.2⟩
  | database_flag name f _ hmask hstep ih =>
    unfold Config.database_flag at hstep
    cases hg : Config.databaseFlagsGet _ name with
    | none => rw [hg] at hstep; exact Option.noConfusion hstep
    | some fl =>
      rw [hg] at hstep
      obtain rfl := (Option.some.inj hstep).symm
      refine ⟨ih.1, fun name' => ?_⟩
      have hfl : fl &&& DB_MASK = fl := fromBits_some hg
      by_cases hn : name = name'
      · subst hn
        rw [lookupA_insertA_self]
        exact lor_land_mask hfl hmask
      · rw [lookupA_insertA_ne _ _ _ _ hn]
        exact ih.2 name'

/-- C9: on every config reachable from `Config::default` through the public
setters, `flags()` and `database_flags(name)` decode successfully for every
bucket name — the `unwrap` panic branch is unreachable, since this type is the
only writer of the stored bits. -/
theorem reachable_decode_total (c : Config) (h : Reachable c) :
    (Config.flagsGet c).isSome ∧
    ∀ name : String, (Config.databaseFlagsGet c name).isSome := by
  obtain ⟨h1, h2⟩ := reachable_validBits h
  constructor
  · unfold Config.flagsGet fromBits
    rw [if_pos h1]
    rfl
  · intro name
    unfold Config.databaseFlagsGet fromBits
    rw [if_pos (h2 name)]
    rfl

/-- Witness for C9: a config built by `default` followed by a
`database_flag` merge (DUP_SORT on bucket `"a"`) decodes both bitsets. -/
theorem reachable_decode_total_witness :
    (Config.flagsGet { Config.default "p" with database_flags := [("a", 4)] }).isSome ∧
    (Config.databaseFlagsGet { Config.default "p" with database_flags := [("a", 4)] }
      "a").isSome :=
  have h : Reachable { Config.default "p" with database_flags := [("a", 4)] } :=
    Reachable.database_flag "a" 4 (Reachable.default "p") (by decide) (by decide)
  ⟨(reachable_decode_total _ h).1, (reachable_decode_total _ h).2 "a"⟩

/-- C10: `env` takes `&mut self` but never modifies it — every field of the
config after the call, successful or not, equals its value before. -/
theorem env_modifies_nothing (c : Config) : (Config.envMut c).2 = c := by
  unfold Config.envMut
  cases Config.flagsGet c <;> rfl

end KV
